import Mathlib

/-!
Shallow embedding of src/agent/LLM/openrouter.py, class OpenRouterGenerator.

The driver makes HTTP chat-completion calls through an endpoint. We model
the endpoint as a function from the call it receives (the response format
requested plus the message list sent) to either a response object or a
raised exception, the latter carried as its message string. Sleeping is
recorded in a trace rather than performed. The in-place mutation of the
message list by messages.insert performed in _prepare_messages_for_json_mode
is modelled by threading the caller-visible list through every function.
-/

namespace OpenRouter

/-- A chat message dict with fields role and content. -/
structure Message where
  role : String
  content : String
deriving Repr, DecidableEq

/-- The response_format a call carries: json_schema structured outputs,
legacy json_object, or no response_format at all (plain). -/
inductive Fmt where
  | jsonSchema
  | jsonObject
  | plain
deriving Repr, DecidableEq

/-- One HTTP call as sent to client.chat.completions.create: the
response_format tier and the messages list passed. -/
structure Call where
  fmt : Fmt
  messages : List Message
deriving Repr, DecidableEq

/-- One element of response.choices: finish_reason and message.content. -/
structure Choice where
  finish_reason : String
  content : String
deriving Repr, DecidableEq

/-- The usage object attached to a response; every field may be absent. -/
structure UsageObj where
  prompt_tokens : Option Nat
  completion_tokens : Option Nat
  total_tokens : Option Nat
  cost : Option Rat
deriving Repr, DecidableEq

/-- A chat-completion response: choices plus an optional usage object
(absent when the response exposes no usage field). -/
structure Response where
  choices : List Choice
  usage : Option UsageObj
deriving Repr, DecidableEq

/-- The usage dict request builds: prompt_tokens, completion_tokens,
total_tokens, cost. -/
structure UsageData where
  prompt_tokens : Nat
  completion_tokens : Nat
  total_tokens : Nat
  cost : Rat
deriving Repr, DecidableEq

/-- The all-zero usage dict returned on total failure. -/
def zeroUsage : UsageData := ⟨0, 0, 0, 0⟩

/-- Endpoint behaviour: each call either returns a response or raises an
exception, carried as its message string, the value of str on it. -/
def Endpoint : Type := Call → Except String Response

/-- The json_mode_strategy field: None, then json_schema, json_object or
disabled. -/
inductive Strategy where
  | unset
  | jsonSchema
  | jsonObject
  | disabled
deriving Repr, DecidableEq

/-- Python substring test: the string json occurs in content.lower(). The
lowering maps each character through Char.toLower over the character list,
which agrees with str.lower on the letters the json pattern can match. -/
def containsJson (s : String) : Bool :=
  decide (("json".data) <:+: (s.data.map Char.toLower))

/-- The any-comprehension of _prepare_messages_for_json_mode: some message
with role system has content whose lowercase form contains json. -/
def hasJsonInstruction (messages : List Message) : Bool :=
  messages.any (fun m => m.role == "system" && containsJson m.content)

/-- The synthetic system message inserted by _prepare_messages_for_json_mode. -/
def jsonInstruction : Message :=
  ⟨"system", "You are a helpful assistant designed to output JSON."⟩

/-- _prepare_messages_for_json_mode: when no system message mentions json,
messages.insert(0, json_instruction); the mutation is modelled by returning
the caller-visible list. -/
def prepareMessagesForJsonMode (messages : List Message) : List Message :=
  if hasJsonInstruction messages then messages else jsonInstruction :: messages

/-- Result of one helper request: the caller-visible message list after the
in-place mutation, the call sent over the wire, and the outcome. -/
structure SubResult where
  msgs : List Message
  call : Call
  res : Except String Response

/-- _request_with_json_schema: prepares messages then sends them with the
json_schema response_format. -/
def requestWithJsonSchema (ep : Endpoint) (messages : List Message) : SubResult :=
  ⟨prepareMessagesForJsonMode messages,
   ⟨Fmt.jsonSchema, prepareMessagesForJsonMode messages⟩,
   ep ⟨Fmt.jsonSchema, prepareMessagesForJsonMode messages⟩⟩

/-- _request_with_json_object: prepares messages then sends them with the
json_object response_format. -/
def requestWithJsonObject (ep : Endpoint) (messages : List Message) : SubResult :=
  ⟨prepareMessagesForJsonMode messages,
   ⟨Fmt.jsonObject, prepareMessagesForJsonMode messages⟩,
   ep ⟨Fmt.jsonObject, prepareMessagesForJsonMode messages⟩⟩

/-- _request_plain_no_json_mode: sends the messages as given, with no
response_format and no mutation. -/
def requestPlainNoJsonMode (ep : Endpoint) (messages : List Message) : SubResult :=
  ⟨messages, ⟨Fmt.plain, messages⟩, ep ⟨Fmt.plain, messages⟩⟩

/-- Result of one chat invocation: the calls sent (in order), the
json_mode_strategy field after, the caller-visible messages list after,
and the outcome returned or the exception propagated. -/
structure ChatResult where
  calls : List Call
  strategy : Strategy
  messages : List Message
  result : Except String Response

/-- Strategy 3 of _chat_with_json_mode: strategy is disabled when this line
runs; issue the plain request and propagate its outcome. -/
def chatStep3 (ep : Endpoint) (acc : List Call) (messages : List Message) : ChatResult :=
  ⟨acc ++ [(requestPlainNoJsonMode ep messages).call], Strategy.disabled,
   (requestPlainNoJsonMode ep messages).msgs, (requestPlainNoJsonMode ep messages).res⟩

/-- Strategy 2 of _chat_with_json_mode: try json_object; on success keep
strategy json_object and return; on exception set strategy disabled and
fall through to strategy 3. -/
def chatStep2 (ep : Endpoint) (acc : List Call) (messages : List Message) : ChatResult :=
  match (requestWithJsonObject ep messages).res with
  | .ok resp =>
      ⟨acc ++ [(requestWithJsonObject ep messages).call], Strategy.jsonObject,
       (requestWithJsonObject ep messages).msgs, .ok resp⟩
  | .error _ =>
      chatStep3 ep (acc ++ [(requestWithJsonObject ep messages).call])
        (requestWithJsonObject ep messages).msgs

/-- _chat_with_json_mode: the degradation state machine. When strategy is
None or json_schema, try json_schema first; on success record strategy
json_schema and return, on exception set strategy json_object and fall
through. When strategy is json_object, start at strategy 2. Otherwise
(disabled) go straight to the plain request. -/
def chatWithJsonMode (ep : Endpoint) (strat : Strategy) (messages : List Message) : ChatResult :=
  if strat = Strategy.unset ∨ strat = Strategy.jsonSchema then
    match (requestWithJsonSchema ep messages).res with
    | .ok resp =>
        ⟨[(requestWithJsonSchema ep messages).call], Strategy.jsonSchema,
         (requestWithJsonSchema ep messages).msgs, .ok resp⟩
    | .error _ =>
        chatStep2 ep [(requestWithJsonSchema ep messages).call]
          (requestWithJsonSchema ep messages).msgs
  else if strat = Strategy.jsonObject then
    chatStep2 ep [] messages
  else
    chatStep3 ep [] messages

/-- chat: dispatch on the json_mode flag; _chat_plain sends the messages
unmodified with no response_format and touches no state. -/
def chat (ep : Endpoint) (jsonMode : Bool) (strat : Strategy)
    (messages : List Message) : ChatResult :=
  if jsonMode then chatWithJsonMode ep strat messages
  else ⟨[⟨Fmt.plain, messages⟩], strat, messages, ep ⟨Fmt.plain, messages⟩⟩

/-- _extract_usage: when the response carries a usage object, copy each
field, defaulting an absent field to 0 or 0.0; otherwise the all-zero dict. -/
def extractUsage (response : Response) : UsageData :=
  match response.usage with
  | some usage =>
      ⟨usage.prompt_tokens.getD 0, usage.completion_tokens.getD 0,
       usage.total_tokens.getD 0, usage.cost.getD 0⟩
  | none => zeroUsage

/-- The content slot of the returned envelope: either a raw string or the
object produced by schema.model_validate_json, kept opaque as the value the
parser yields. -/
inductive Content where
  | str : String → Content
  | parsed : String → Content
deriving Repr, DecidableEq

/-- The tuple request returns: content, error message, usage dict. -/
structure Envelope where
  content : Content
  error : String
  usage : UsageData
deriving Repr, DecidableEq

/-- The schema field as the driver uses it: schema.model_validate_json
either yields a parsed object or raises. After init the field is never
None, since the constructor falls back to AgentActionSchema. -/
def Schema : Type := String → Option String

/-- The body of one try block of request after chat has produced its
outcome: index choices (an empty list raises IndexError, whose str is the
Python text), extract usage, and when return_parsed and json_mode hold
parse the content, falling back to the raw string on a parse exception. -/
def attemptBody (schema : Schema) (returnParsed jsonMode : Bool) :
    Except String Response → Except String Envelope
  | .error e => .error e
  | .ok response =>
      match response.choices with
      | [] => .error "list index out of range"
      | choice :: _ =>
          if returnParsed && jsonMode then
            match schema choice.content with
            | some parsedContent =>
                .ok ⟨Content.parsed parsedContent, "", extractUsage response⟩
            | none => .ok ⟨Content.str choice.content, "", extractUsage response⟩
          else .ok ⟨Content.str choice.content, "", extractUsage response⟩

/-- The observable outcome of one request invocation: the envelope
returned, the driver state and caller-visible messages after, the calls
sent, the backoff sleeps performed in order, and how many loop iterations
ran. -/
structure RunResult where
  envelope : Envelope
  strategy : Strategy
  messages : List Message
  calls : List Call
  sleeps : List Nat
  attempts : Nat
deriving Repr, DecidableEq

/-- max_retries, the fixed bound of the retry loop. -/
def maxRetries : Nat := 3

/-- The retry loop of request, one equation per loop iteration: run chat,
evaluate the try body; on success return; on exception return the failure
envelope when attempt equals max_retries minus one, otherwise sleep for
two to the attempt and continue with the mutated state. The empty-list
case is the loop running out, where the Python function would return None. -/
def requestAux (ep : Endpoint) (schema : Schema) (jsonMode returnParsed : Bool) :
    List Nat → Strategy → List Message → List Call → List Nat → Nat → Option RunResult
  | [], _, _, _, _, _ => none
  | attempt :: rest, strat, messages, calls, sleeps, attempts =>
      match attemptBody schema returnParsed jsonMode (chat ep jsonMode strat messages).result with
      | .ok envelope =>
          some ⟨envelope, (chat ep jsonMode strat messages).strategy,
            (chat ep jsonMode strat messages).messages,
            calls ++ (chat ep jsonMode strat messages).calls, sleeps, attempts + 1⟩
      | .error e =>
          if attempt = maxRetries - 1 then
            some ⟨⟨Content.str "", e, zeroUsage⟩,
              (chat ep jsonMode strat messages).strategy,
              (chat ep jsonMode strat messages).messages,
              calls ++ (chat ep jsonMode strat messages).calls, sleeps, attempts + 1⟩
          else
            requestAux ep schema jsonMode returnParsed rest
              (chat ep jsonMode strat messages).strategy
              (chat ep jsonMode strat messages).messages
              (calls ++ (chat ep jsonMode strat messages).calls)
              (sleeps ++ [2 ^ attempt]) (attempts + 1)

/-- request: run the retry loop over range(max_retries) from the given
driver state. -/
def request (ep : Endpoint) (schema : Schema) (jsonMode returnParsed : Bool)
    (strat : Strategy) (messages : List Message) : Option RunResult :=
  requestAux ep schema jsonMode returnParsed (List.range maxRetries) strat messages [] [] 0

/-- The process environment as os.environ.get sees it. -/
def Env : Type := String → Option String

/-- Python truthiness of an os.environ.get result: None and the empty
string are falsy. -/
def truthy : Option String → Bool
  | none => false
  | some s => !(s == "")

/-- The observable outcome of the constructor: the api_key handed to
AsyncOpenAI, the base_url, and the is_custom_endpoint flag. -/
structure GeneratorConfig where
  api_key : Option String
  base_url : String
  is_custom_endpoint : Bool
deriving Repr, DecidableEq

/-- The ValueError message raised when the custom endpoint is enabled but
not configured. -/
def customEndpointError : String :=
  "Custom endpoint enabled but CUSTOM_LLM_API_KEY or CUSTOM_LLM_BASE_URL not set. Please set these environment variables."

/-- The constructor branch on use_custom_endpoint: with it set, read the
two custom variables and raise ValueError unless both are truthy;
otherwise build the OpenRouter client, passing the possibly absent
OPENROUTER_API_KEY through. -/
def initGenerator (env : Env) (use_custom_endpoint : Bool) :
    Except String GeneratorConfig :=
  if use_custom_endpoint then
    if !truthy (env "CUSTOM_LLM_API_KEY") || !truthy (env "CUSTOM_LLM_BASE_URL") then
      .error customEndpointError
    else
      .ok ⟨env "CUSTOM_LLM_API_KEY", (env "CUSTOM_LLM_BASE_URL").getD "", true⟩
  else
    .ok ⟨env "OPENROUTER_API_KEY", "https://openrouter.ai/api/v1", false⟩

/-- Whether an Except value is the error side. -/
def isErr {ε α : Type} : Except ε α → Bool
  | .ok _ => false
  | .error _ => true

/-- In the disabled state a json-mode chat is exactly one plain call with
the messages as given, and neither strategy nor messages change. -/
theorem chat_disabled (ep : Endpoint) (msgs : List Message) :
    chat ep true Strategy.disabled msgs =
      ⟨[⟨Fmt.plain, msgs⟩], Strategy.disabled, msgs, ep ⟨Fmt.plain, msgs⟩⟩ := rfl

/-- Every run of the retry loop that starts in the disabled state stays
disabled, never mutates the messages, and only appends plain calls
carrying the original messages. -/
theorem requestAux_disabled (ep : Endpoint) (schema : Schema) (rp : Bool)
    (msgs : List Message) :
    ∀ (l : List Nat) (calls : List Call) (sleeps : List Nat) (k : Nat) (r : RunResult),
      requestAux ep schema true rp l Strategy.disabled msgs calls sleeps k = some r →
      r.strategy = Strategy.disabled ∧ r.messages = msgs ∧
        ∃ n, r.calls = calls ++ List.replicate n (⟨Fmt.plain, msgs⟩ : Call) := by
  intro l
  induction l with
  | nil => intro calls sleeps k r h; exact absurd h (by simp [requestAux])
  | cons a rest ih =>
      intro calls sleeps k r h
      rw [requestAux, chat_disabled] at h
      split at h
      · cases h
        exact ⟨rfl, rfl, 1, by simp⟩
      · split at h
        · cases h
          exact ⟨rfl, rfl, 1, by simp⟩
        · obtain ⟨h1, h2, n, h3⟩ := ih _ _ _ _ h
          refine ⟨h1, h2, n + 1, ?_⟩
          rw [h3]
          simp [List.replicate_succ]

/-- Claim C1: once the json_mode_strategy field of an instance has reached
disabled, a request call in json mode issues only plain completion
requests without any response_format, performs no instruction injection,
passes the caller messages through unmodified, and leaves the strategy at
disabled, so the property persists for the rest of the instance lifetime. -/
theorem c1_disabled_plain_only (ep : Endpoint) (schema : Schema) (rp : Bool)
    (msgs : List Message) (r : RunResult)
    (h : request ep schema true rp Strategy.disabled msgs = some r) :
    r.strategy = Strategy.disabled ∧ r.messages = msgs ∧
      ∀ c ∈ r.calls, c.fmt = Fmt.plain ∧ c.messages = msgs := by
  obtain ⟨h1, h2, n, h3⟩ := requestAux_disabled ep schema rp msgs _ _ _ _ r h
  refine ⟨h1, h2, ?_⟩
  intro c hc
  rw [h3] at hc
  simp only [List.nil_append] at hc
  have := List.eq_of_mem_replicate hc
  subst this
  exact ⟨rfl, rfl⟩

/-- Claim C1 witness: a concrete run from the disabled state against an
endpoint that always fails. -/
theorem c1_disabled_plain_only_witness :
    ∃ r, request (fun _ => Except.error "down") (fun _ => none) true true
        Strategy.disabled [⟨"user", "hi"⟩] = some r ∧
      r.strategy = Strategy.disabled ∧ r.messages = [⟨"user", "hi"⟩] ∧
        ∀ c ∈ r.calls, c.fmt = Fmt.plain ∧ c.messages = [(⟨"user", "hi"⟩ : Message)] := by
  refine ⟨_, rfl, c1_disabled_plain_only (fun _ => Except.error "down")
    (fun _ => none) true [⟨"user", "hi"⟩] _ rfl⟩

/-- Claim C2: a request call runs at most 3 attempts; a sleep of two to
the power of the attempt index follows every failed attempt except the
final one, so the recorded sleeps are exactly 1 second then 2 seconds and
no sleep follows the third failure. -/
theorem c2_retry_backoff (ep : Endpoint) (schema : Schema) (jm rp : Bool)
    (strat : Strategy) (msgs : List Message) (r : RunResult)
    (h : request ep schema jm rp strat msgs = some r) :
    r.attempts ≤ 3 ∧
      r.sleeps = (List.range (r.attempts - 1)).map (fun i => 2 ^ i) := by
  unfold request at h
  rw [show List.range maxRetries = [0, 1, 2] by decide] at h
  rw [requestAux] at h
  split at h
  · cases h
    exact ⟨by norm_num, by simp⟩
  · split at h
    next hc => exact absurd hc (by decide)
    next hc =>
      rw [requestAux] at h
      split at h
      · cases h
        exact ⟨by norm_num, by simp [List.range_succ]⟩
      · split at h
        next hc2 => exact absurd hc2 (by decide)
        next hc2 =>
          rw [requestAux] at h
          split at h
          · cases h
            exact ⟨by norm_num, by simp [List.range_succ]⟩
          · split at h
            · cases h
              exact ⟨by norm_num, by simp [List.range_succ]⟩
            next hc3 => exact absurd (by decide : (2 : Nat) = maxRetries - 1) hc3

/-- Claim C2 witness: a concrete run in which every attempt fails, showing
3 attempts and sleeps of 1 second then 2 seconds. -/
theorem c2_retry_backoff_witness :
    ∃ r, request (fun _ => Except.error "timeout") (fun _ => none) false true
        Strategy.unset [⟨"user", "q"⟩] = some r ∧
      r.attempts ≤ 3 ∧
        r.sleeps = (List.range (r.attempts - 1)).map (fun i => 2 ^ i) := by
  refine ⟨_, rfl, c2_retry_backoff (fun _ => Except.error "timeout")
    (fun _ => none) false true Strategy.unset [⟨"user", "q"⟩] _ rfl⟩

/-- Against an endpoint whose every call raises with message e, every chat
invocation propagates an exception with message e, whatever the mode and
strategy. -/
theorem chat_result_error (ep : Endpoint) (e : String)
    (hep : ∀ c, ep c = Except.error e) (jm : Bool) (strat : Strategy)
    (msgs : List Message) : (chat ep jm strat msgs).result = Except.error e := by
  cases jm
  · simp [chat, hep]
  · cases strat <;>
      simp [chat, chatWithJsonMode, chatStep2, chatStep3, requestWithJsonSchema,
        requestWithJsonObject, requestPlainNoJsonMode, hep]

/-- Claim C3 (amended): when every attempt raises an exception carrying
message e, request returns after 3 attempts the envelope with empty
content, error exactly e, and the all-zero usage dict; the error is the
final exception message verbatim, hence non-empty exactly when that
message is, and empty for an exception whose message is empty. -/
theorem c3_total_failure (ep : Endpoint) (schema : Schema) (jm rp : Bool)
    (strat : Strategy) (msgs : List Message) (e : String)
    (hep : ∀ c, ep c = Except.error e) :
    ∃ r, request ep schema jm rp strat msgs = some r ∧
      r.attempts = 3 ∧ r.envelope = ⟨Content.str "", e, zeroUsage⟩ := by
  simp only [request, show List.range maxRetries = [0, 1, 2] by decide,
    requestAux, chat_result_error ep e hep, attemptBody, maxRetries]
  norm_num

/-- Claim C3 witness: a concrete endpoint that always raises with a fixed
message. -/
theorem c3_total_failure_witness :
    ∃ r, request (fun _ => Except.error "conn reset") (fun _ => none) true false
        Strategy.unset [⟨"user", "go"⟩] = some r ∧
      r.attempts = 3 ∧
      r.envelope = ⟨Content.str "", "conn reset", zeroUsage⟩ :=
  c3_total_failure _ _ true false Strategy.unset _ "conn reset" (fun _ => rfl)

/-- Claim C3 counterexample: when the three raised exceptions carry the
empty message, the code returns the empty string as error, so the claim
that the error is non-empty after three failed attempts is false. -/
theorem c3_total_failure_cex :
    (request (fun _ => Except.error "") (fun _ => none) true true Strategy.unset
        []).map (fun r => r.envelope) =
      some ⟨Content.str "", "", zeroUsage⟩ := by decide

/-- Whenever the try body of request succeeds, the envelope it builds has
the empty string in the error slot. -/
theorem attemptBody_ok_error (schema : Schema) (rp jm : Bool)
    (x : Except String Response) (env : Envelope)
    (h : attemptBody schema rp jm x = Except.ok env) : env.error = "" := by
  unfold attemptBody at h
  split at h
  · simp at h
  · split at h
    · simp at h
    · split at h
      · split at h
        · cases h; rfl
        · cases h; rfl
      · cases h; rfl

/-- Every envelope the retry loop can return either has an empty error
slot (the success shape) or has empty content and all-zero usage (the
failure shape). -/
theorem requestAux_envelope (ep : Endpoint) (schema : Schema) (jm rp : Bool) :
    ∀ (l : List Nat) (strat : Strategy) (msgs : List Message)
      (calls : List Call) (sleeps : List Nat) (k : Nat) (r : RunResult),
      requestAux ep schema jm rp l strat msgs calls sleeps k = some r →
      r.envelope.error = "" ∨
        (r.envelope.content = Content.str "" ∧ r.envelope.usage = zeroUsage) := by
  intro l
  induction l with
  | nil => intro strat msgs calls sleeps k r h; exact absurd h (by simp [requestAux])
  | cons a rest ih =>
      intro strat msgs calls sleeps k r h
      rw [requestAux] at h
      split at h
      next env hAB =>
        cases h
        exact Or.inl (attemptBody_ok_error _ _ _ _ _ hAB)
      next e hAB =>
        split at h
        · cases h
          exact Or.inr ⟨rfl, rfl⟩
        · exact ih _ _ _ _ _ _ h

/-- Claim C5 (amended): the envelope never carries conflicting signals:
on success the error slot is the empty string, and on failure the content
slot is the empty string and the usage dict is all-zero; the error slot on
failure holds the final exception message verbatim, which may itself be
the empty string when that exception has an empty message. -/
theorem c5_envelope_consistent (ep : Endpoint) (schema : Schema) (jm rp : Bool)
    (strat : Strategy) (msgs : List Message) (r : RunResult)
    (h : request ep schema jm rp strat msgs = some r) :
    r.envelope.error = "" ∨
      (r.envelope.content = Content.str "" ∧ r.envelope.usage = zeroUsage) :=
  requestAux_envelope ep schema jm rp _ strat msgs _ _ _ r h

/-- Claim C5 witness: a concrete successful run, whose envelope carries an
empty error slot. -/
theorem c5_envelope_consistent_witness :
    ∃ r, request (fun _ => Except.ok ⟨[⟨"stop", "out"⟩], none⟩) (fun _ => none)
        false true Strategy.unset [⟨"user", "hi"⟩] = some r ∧
      (r.envelope.error = "" ∨
        (r.envelope.content = Content.str "" ∧ r.envelope.usage = zeroUsage)) :=
  ⟨_, rfl, c5_envelope_consistent (fun _ => Except.ok ⟨[⟨"stop", "out"⟩], none⟩)
    (fun _ => none) false true Strategy.unset [⟨"user", "hi"⟩] _ rfl⟩

/-- Claim C5 counterexample: a run in which every attempt raises with an
empty message fails, returning empty content, yet its error slot is the
empty string too, so the part of the claim asserting a non-empty error on
failure is false. -/
theorem c5_envelope_consistent_cex :
    (request (fun _ => Except.error "") (fun _ => none) false true Strategy.unset
        [⟨"user", "hi"⟩]).map (fun r => (r.envelope.content, r.envelope.error)) =
      some (Content.str "", "") := by decide

/-- Claim C4: against a model that rejects json_schema but accepts
json_object, the first request from the fresh state performs a json_schema
call then a json_object call inside one retry slot (one attempt overall),
caches strategy json_object, and a second request from the cached state
issues a single json_object call, never trying json_schema again. -/
theorem c4_degrade_to_json_object (ep : Endpoint) (schema : Schema) (rp : Bool)
    (msgs msgs2 : List Message) (resp : Response) (choice : Choice)
    (rest : List Choice)
    (hs : ∀ m, ∃ e, ep ⟨Fmt.jsonSchema, m⟩ = Except.error e)
    (ho : ∀ m, ep ⟨Fmt.jsonObject, m⟩ = Except.ok resp)
    (hch : resp.choices = choice :: rest) :
    ∃ r1, request ep schema true rp Strategy.unset msgs = some r1 ∧
      r1.calls.map Call.fmt = [Fmt.jsonSchema, Fmt.jsonObject] ∧
      r1.attempts = 1 ∧ r1.strategy = Strategy.jsonObject ∧
      ∃ r2, request ep schema true rp r1.strategy msgs2 = some r2 ∧
        r2.calls.map Call.fmt = [Fmt.jsonObject] ∧ r2.attempts = 1 := by
  obtain ⟨e1, he1⟩ := hs (prepareMessagesForJsonMode msgs)
  have hchat1 : chat ep true Strategy.unset msgs =
      ⟨[⟨Fmt.jsonSchema, prepareMessagesForJsonMode msgs⟩,
        ⟨Fmt.jsonObject, prepareMessagesForJsonMode (prepareMessagesForJsonMode msgs)⟩],
       Strategy.jsonObject,
       prepareMessagesForJsonMode (prepareMessagesForJsonMode msgs),
       .ok resp⟩ := by
    simp [chat, chatWithJsonMode, chatStep2, requestWithJsonSchema,
      requestWithJsonObject, he1, ho]
  have hchat2 : chat ep true Strategy.jsonObject msgs2 =
      ⟨[⟨Fmt.jsonObject, prepareMessagesForJsonMode msgs2⟩], Strategy.jsonObject,
       prepareMessagesForJsonMode msgs2, .ok resp⟩ := by
    simp [chat, chatWithJsonMode, chatStep2, requestWithJsonObject, ho]
  obtain ⟨env1, henv1⟩ : ∃ env, attemptBody schema rp true (Except.ok resp) =
      Except.ok env := by
    simp only [attemptBody, hch]
    by_cases hb : (rp && true) = true
    · rw [if_pos hb]
      rcases hpc : schema choice.content with _ | p <;> exact ⟨_, rfl⟩
    · rw [if_neg hb]
      exact ⟨_, rfl⟩
  have h1 : request ep schema true rp Strategy.unset msgs =
      some ⟨env1, Strategy.jsonObject,
        prepareMessagesForJsonMode (prepareMessagesForJsonMode msgs),
        [⟨Fmt.jsonSchema, prepareMessagesForJsonMode msgs⟩,
         ⟨Fmt.jsonObject,
          prepareMessagesForJsonMode (prepareMessagesForJsonMode msgs)⟩],
        [], 1⟩ := by
    simp only [request, show List.range maxRetries = [0, 1, 2] by decide,
      requestAux, hchat1, henv1]
    rfl
  have h2 : request ep schema true rp Strategy.jsonObject msgs2 =
      some ⟨env1, Strategy.jsonObject, prepareMessagesForJsonMode msgs2,
        [⟨Fmt.jsonObject, prepareMessagesForJsonMode msgs2⟩], [], 1⟩ := by
    simp only [request, show List.range maxRetries = [0, 1, 2] by decide,
      requestAux, hchat2, henv1]
    rfl
  exact ⟨_, h1, by simp, rfl, rfl, _, h2, by simp, rfl⟩

/-- Claim C4 witness: a concrete endpoint that rejects the json_schema
format and answers the json_object format. -/
theorem c4_degrade_to_json_object_witness :
    ∃ r1, request (fun c => match c.fmt with
        | Fmt.jsonSchema => Except.error "response_format json_schema unsupported"
        | _ => Except.ok ⟨[⟨"stop", "x"⟩], none⟩) (fun _ => none) true true
        Strategy.unset [⟨"user", "hi"⟩] = some r1 ∧
      r1.calls.map Call.fmt = [Fmt.jsonSchema, Fmt.jsonObject] ∧
      r1.attempts = 1 ∧ r1.strategy = Strategy.jsonObject ∧
      ∃ r2, request (fun c => match c.fmt with
          | Fmt.jsonSchema => Except.error "response_format json_schema unsupported"
          | _ => Except.ok ⟨[⟨"stop", "x"⟩], none⟩) (fun _ => none) true true
          r1.strategy [⟨"user", "again"⟩] = some r2 ∧
        r2.calls.map Call.fmt = [Fmt.jsonObject] ∧ r2.attempts = 1 :=
  c4_degrade_to_json_object _ _ true [⟨"user", "hi"⟩] [⟨"user", "again"⟩]
    ⟨[⟨"stop", "x"⟩], none⟩ ⟨"stop", "x"⟩ []
    (fun _ => ⟨"response_format json_schema unsupported", rfl⟩)
    (fun _ => rfl) rfl

/-- Claim C6: in the two json-requesting tiers the prepared message list
gains exactly one synthetic system message at position 0 when no system
message mentions json in any letter case, is left untouched when some
system message already does, and neither the disabled tier nor plain mode
ever alters the messages they send. -/
theorem c6_injection (ep : Endpoint) (strat : Strategy)
    (messages : List Message) :
    ((∀ m ∈ messages, m.role = "system" → containsJson m.content = false) →
        prepareMessagesForJsonMode messages = jsonInstruction :: messages) ∧
    ((∃ m ∈ messages, m.role = "system" ∧ containsJson m.content = true) →
        prepareMessagesForJsonMode messages = messages) ∧
    (∀ c ∈ (chatWithJsonMode ep Strategy.disabled messages).calls,
        c.messages = messages) ∧
    (∀ c ∈ (chat ep false strat messages).calls, c.messages = messages) := by
  refine ⟨?_, ?_, ?_, ?_⟩
  · intro hnone
    have hfalse : hasJsonInstruction messages = false := by
      simp only [hasJsonInstruction, List.any_eq_false, Bool.and_eq_true,
        beq_iff_eq, not_and]
      intro m hm hrole
      simp [hnone m hm hrole]
    simp [prepareMessagesForJsonMode, hfalse]
  · intro hsome
    have htrue : hasJsonInstruction messages = true := by
      obtain ⟨m, hm, hrole, hjson⟩ := hsome
      simp only [hasJsonInstruction, List.any_eq_true]
      exact ⟨m, hm, by simp [hrole, hjson]⟩
    simp [prepareMessagesForJsonMode, htrue]
  · intro c hc
    have : (chatWithJsonMode ep Strategy.disabled messages).calls =
        [⟨Fmt.plain, messages⟩] := rfl
    rw [this] at hc
    simp only [List.mem_singleton] at hc
    rw [hc]
  · intro c hc
    have : (chat ep false strat messages).calls = [⟨Fmt.plain, messages⟩] := rfl
    rw [this] at hc
    simp only [List.mem_singleton] at hc
    rw [hc]

/-- Claim C6 witness: a list without any json-mentioning system message
gains exactly the synthetic message in front, and a list whose system
message already mentions JSON is left untouched. -/
theorem c6_injection_witness :
    prepareMessagesForJsonMode [⟨"user", "x"⟩] =
      jsonInstruction :: [⟨"user", "x"⟩] ∧
    prepareMessagesForJsonMode [⟨"system", "Reply in JSON."⟩] =
      [⟨"system", "Reply in JSON."⟩] :=
  ⟨(c6_injection (fun _ => Except.error "x") Strategy.unset
      [⟨"user", "x"⟩]).1 (by decide),
   (c6_injection (fun _ => Except.error "x") Strategy.unset
      [⟨"system", "Reply in JSON."⟩]).2.1 (by decide)⟩

/-- Claim C7: usage extraction yields the all-zero record when the
response exposes no usage object, and otherwise copies each present field
verbatim, defaulting an absent token count to 0 and an absent cost to 0.0. -/
theorem c7_extract_usage (response : Response) :
    (response.usage = none → extractUsage response = ⟨0, 0, 0, 0⟩) ∧
    (∀ u, response.usage = some u →
      extractUsage response =
        ⟨u.prompt_tokens.getD 0, u.completion_tokens.getD 0,
         u.total_tokens.getD 0, u.cost.getD 0⟩) := by
  constructor
  · intro h
    simp [extractUsage, h, zeroUsage]
  · intro u h
    simp [extractUsage, h]

/-- Claim C7 witness: a response without usage yields zeros, and one with
a partial usage object copies the present fields and defaults the rest. -/
theorem c7_extract_usage_witness :
    extractUsage ⟨[], none⟩ = ⟨0, 0, 0, 0⟩ ∧
    extractUsage ⟨[], some ⟨some 3, none, some 10, none⟩⟩ = ⟨3, 0, 10, 0⟩ :=
  ⟨(c7_extract_usage ⟨[], none⟩).1 rfl,
   (c7_extract_usage ⟨[], some ⟨some 3, none, some 10, none⟩⟩).2
     ⟨some 3, none, some 10, none⟩ rfl⟩

/-- Against an endpoint whose every call returns resp, every chat
invocation returns resp, whatever the mode and strategy. -/
theorem chat_result_ok (ep : Endpoint) (resp : Response)
    (hep : ∀ c, ep c = Except.ok resp) (jm : Bool) (strat : Strategy)
    (msgs : List Message) : (chat ep jm strat msgs).result = Except.ok resp := by
  cases jm
  · simp [chat, hep]
  · cases strat <;>
      simp [chat, chatWithJsonMode, chatStep2, chatStep3, requestWithJsonSchema,
        requestWithJsonObject, requestPlainNoJsonMode, hep]

/-- Claim C8: when the call succeeds, schema validation runs exactly when
json_mode and return_parsed hold (the schema field is always present after
init); a successful parse returns the parsed object with empty error, a
failed parse returns the raw content string with empty error and the same
usage, consuming no extra attempt; with json_mode or return_parsed off the
raw string is returned and no parse happens. -/
theorem c8_schema_validation (ep : Endpoint) (schema : Schema) (resp : Response)
    (choice : Choice) (rest : List Choice) (strat : Strategy)
    (msgs : List Message)
    (hep : ∀ c, ep c = Except.ok resp) (hch : resp.choices = choice :: rest) :
    (∃ r, request ep schema true true strat msgs = some r ∧
        r.attempts = 1 ∧ r.envelope.error = "" ∧
        r.envelope.usage = extractUsage resp ∧
        r.envelope.content = (match schema choice.content with
          | some p => Content.parsed p
          | none => Content.str choice.content)) ∧
    (∀ rp jm : Bool, (rp && jm) = false →
      ∃ r, request ep schema jm rp strat msgs = some r ∧
        r.attempts = 1 ∧
        r.envelope = ⟨Content.str choice.content, "", extractUsage resp⟩) := by
  constructor
  · have hAB : attemptBody schema true true (Except.ok resp) =
        Except.ok ⟨(match schema choice.content with
          | some p => Content.parsed p
          | none => Content.str choice.content), "", extractUsage resp⟩ := by
      simp only [attemptBody, hch]
      rcases hpc : schema choice.content with _ | p <;> simp [hpc]
    refine ⟨⟨⟨(match schema choice.content with
          | some p => Content.parsed p
          | none => Content.str choice.content), "", extractUsage resp⟩,
        (chat ep true strat msgs).strategy, (chat ep true strat msgs).messages,
        [] ++ (chat ep true strat msgs).calls, [], 1⟩, ?_, rfl, rfl, rfl, rfl⟩
    simp only [request, show List.range maxRetries = [0, 1, 2] by decide,
      requestAux, chat_result_ok ep resp hep, hAB]
  · intro rp jm hfalse
    have hAB2 : attemptBody schema rp jm (Except.ok resp) =
        Except.ok ⟨Content.str choice.content, "", extractUsage resp⟩ := by
      simp only [attemptBody, hch]
      rw [if_neg (by simp [hfalse])]
    refine ⟨⟨⟨Content.str choice.content, "", extractUsage resp⟩,
        (chat ep jm strat msgs).strategy, (chat ep jm strat msgs).messages,
        [] ++ (chat ep jm strat msgs).calls, [], 1⟩, ?_, rfl, rfl⟩
    simp only [request, show List.range maxRetries = [0, 1, 2] by decide,
      requestAux, chat_result_ok ep resp hep, hAB2]

/-- Claim C8 witness: a concrete accepting endpoint with a one-choice
response; with a succeeding parser in full json mode the parsed object
comes back, and with return_parsed off the raw string comes back. -/
theorem c8_schema_validation_witness :
    (∃ r, request (fun _ => Except.ok ⟨[⟨"stop", "payload"⟩], none⟩)
        (fun s => some s) true true Strategy.unset [⟨"user", "q"⟩] = some r ∧
      r.attempts = 1 ∧ r.envelope.error = "" ∧
      r.envelope.usage = extractUsage ⟨[⟨"stop", "payload"⟩], none⟩ ∧
      r.envelope.content = Content.parsed "payload") ∧
    (∃ r, request (fun _ => Except.ok ⟨[⟨"stop", "payload"⟩], none⟩)
        (fun s => some s) true false Strategy.unset [⟨"user", "q"⟩] = some r ∧
      r.attempts = 1 ∧
      r.envelope = ⟨Content.str "payload", "",
        extractUsage ⟨[⟨"stop", "payload"⟩], none⟩⟩) :=
  ⟨(c8_schema_validation (fun _ => Except.ok ⟨[⟨"stop", "payload"⟩], none⟩)
      (fun s => some s) ⟨[⟨"stop", "payload"⟩], none⟩ ⟨"stop", "payload"⟩ []
      Strategy.unset [⟨"user", "q"⟩] (fun _ => rfl) rfl).1,
   (c8_schema_validation (fun _ => Except.ok ⟨[⟨"stop", "payload"⟩], none⟩)
      (fun s => some s) ⟨[⟨"stop", "payload"⟩], none⟩ ⟨"stop", "payload"⟩ []
      Strategy.unset [⟨"user", "q"⟩] (fun _ => rfl) rfl).2 false true rfl⟩

/-- The injected instruction itself mentions JSON, so preparing a list
that already starts with it changes nothing. -/
theorem prepare_after_inject (msgs : List Message) :
    prepareMessagesForJsonMode (jsonInstruction :: msgs) =
      jsonInstruction :: msgs := by
  have h : hasJsonInstruction (jsonInstruction :: msgs) = true := by
    simp only [hasJsonInstruction, List.any_cons, Bool.or_eq_true]
    exact Or.inl (by decide)
  simp [prepareMessagesForJsonMode, h]

/-- Claim C9: the insert at index 0 mutates the caller list, so after a
json-mode request whose messages lacked a json system message, the caller
list starts with the synthetic message; and on the very call where both
json tiers fail, the plain fall-through request is sent with the injected
message present, not with the original list. -/
theorem c9_inplace_injection_leak (ep : Endpoint) (schema : Schema) (rp : Bool)
    (msgs : List Message)
    (hno : hasJsonInstruction msgs = false)
    (hs : ∀ m, ∃ e, ep ⟨Fmt.jsonSchema, m⟩ = Except.error e)
    (ho : ∀ m, ∃ e, ep ⟨Fmt.jsonObject, m⟩ = Except.error e) :
    ∃ r, request ep schema true rp Strategy.unset msgs = some r ∧
      r.messages = jsonInstruction :: msgs ∧
      (⟨Fmt.plain, jsonInstruction :: msgs⟩ : Call) ∈ r.calls ∧
      ∀ c ∈ r.calls, c.messages = jsonInstruction :: msgs := by
  have hprep : prepareMessagesForJsonMode msgs = jsonInstruction :: msgs := by
    simp [prepareMessagesForJsonMode, hno]
  obtain ⟨e1, he1⟩ := hs (jsonInstruction :: msgs)
  obtain ⟨e2, he2⟩ := ho (jsonInstruction :: msgs)
  have hchat : chat ep true Strategy.unset msgs =
      ⟨[⟨Fmt.jsonSchema, jsonInstruction :: msgs⟩,
        ⟨Fmt.jsonObject, jsonInstruction :: msgs⟩,
        ⟨Fmt.plain, jsonInstruction :: msgs⟩],
       Strategy.disabled, jsonInstruction :: msgs,
       ep ⟨Fmt.plain, jsonInstruction :: msgs⟩⟩ := by
    simp [chat, chatWithJsonMode, chatStep2, chatStep3, requestWithJsonSchema,
      requestWithJsonObject, requestPlainNoJsonMode, hprep,
      prepare_after_inject, he1, he2]
  rcases hAB : attemptBody schema rp true (ep ⟨Fmt.plain, jsonInstruction :: msgs⟩)
      with e | env
  · have hreq : request ep schema true rp Strategy.unset msgs =
        some ⟨⟨Content.str "", e, zeroUsage⟩, Strategy.disabled,
          jsonInstruction :: msgs,
          [⟨Fmt.jsonSchema, jsonInstruction :: msgs⟩,
           ⟨Fmt.jsonObject, jsonInstruction :: msgs⟩,
           ⟨Fmt.plain, jsonInstruction :: msgs⟩,
           ⟨Fmt.plain, jsonInstruction :: msgs⟩,
           ⟨Fmt.plain, jsonInstruction :: msgs⟩],
          [1, 2], 3⟩ := by
      simp only [request, show List.range maxRetries = [0, 1, 2] by decide,
        requestAux, maxRetries, hchat, chat_disabled, hAB]
      norm_num
    refine ⟨_, hreq, rfl, by simp, ?_⟩
    intro c hc
    simp only [List.mem_cons, List.not_mem_nil, or_false] at hc
    rcases hc with h | h | h | h | h <;> rw [h]
  · have hreq : request ep schema true rp Strategy.unset msgs =
        some ⟨env, Strategy.disabled, jsonInstruction :: msgs,
          [⟨Fmt.jsonSchema, jsonInstruction :: msgs⟩,
           ⟨Fmt.jsonObject, jsonInstruction :: msgs⟩,
           ⟨Fmt.plain, jsonInstruction :: msgs⟩],
          [], 1⟩ := by
      simp only [request, show List.range maxRetries = [0, 1, 2] by decide,
        requestAux, maxRetries, hchat, chat_disabled, hAB]
      norm_num
    refine ⟨_, hreq, rfl, by simp, ?_⟩
    intro c hc
    simp only [List.mem_cons, List.not_mem_nil, or_false] at hc
    rcases hc with h | h | h <;> rw [h]

/-- Claim C9 witness: a concrete endpoint rejecting both json tiers and
failing the plain call too; the caller list keeps the injected message and
the plain call of the fall-through carries it. -/
theorem c9_inplace_injection_leak_witness :
    ∃ r, request (fun c => match c.fmt with
        | Fmt.plain => Except.error "down"
        | _ => Except.error "unsupported") (fun _ => none) true true
        Strategy.unset [⟨"user", "hi"⟩] = some r ∧
      r.messages = jsonInstruction :: [⟨"user", "hi"⟩] ∧
      (⟨Fmt.plain, jsonInstruction :: [⟨"user", "hi"⟩]⟩ : Call) ∈ r.calls ∧
      ∀ c ∈ r.calls, c.messages = jsonInstruction :: [(⟨"user", "hi"⟩ : Message)] :=
  c9_inplace_injection_leak _ _ true [⟨"user", "hi"⟩] (by decide)
    (fun _ => ⟨"unsupported", rfl⟩) (fun _ => ⟨"unsupported", rfl⟩)

/-- A missing or empty environment variable is exactly a falsy one. -/
theorem truthy_eq_false_iff (o : Option String) :
    truthy o = false ↔ o = none ∨ o = some "" := by
  rcases o with _ | s <;> simp [truthy]

/-- Claim C10: with use_custom_endpoint the constructor raises ValueError
exactly when CUSTOM_LLM_API_KEY or CUSTOM_LLM_BASE_URL is unset or empty;
without it the constructor never raises and passes a possibly missing
OPENROUTER_API_KEY through as None. -/
theorem c10_init_env (env : Env) :
    ((∃ msg, initGenerator env true = Except.error msg) ↔
      (env "CUSTOM_LLM_API_KEY" = none ∨ env "CUSTOM_LLM_API_KEY" = some "" ∨
       env "CUSTOM_LLM_BASE_URL" = none ∨
       env "CUSTOM_LLM_BASE_URL" = some "")) ∧
    initGenerator env false =
      Except.ok ⟨env "OPENROUTER_API_KEY", "https://openrouter.ai/api/v1",
        false⟩ := by
  refine ⟨?_, rfl⟩
  have hiff : (∃ msg, initGenerator env true = Except.error msg) ↔
      (truthy (env "CUSTOM_LLM_API_KEY") = false ∨
       truthy (env "CUSTOM_LLM_BASE_URL") = false) := by
    rcases hk : truthy (env "CUSTOM_LLM_API_KEY") with _ | _ <;>
      rcases hu : truthy (env "CUSTOM_LLM_BASE_URL") with _ | _ <;>
        simp [initGenerator, hk, hu]
  rw [hiff, truthy_eq_false_iff, truthy_eq_false_iff]
  tauto

end OpenRouter
